import Mathlib

/-!
Verification of the batch-preparation pipeline in `code/BatchMaker.py`
(super-resolution training-batch maker).

Tensors are shallowly embedded as index functions over ℚ with shape
metadata carried separately; randomness (numpy `randint`, torch `rand`)
is embedded by passing the drawn values explicitly together with a
predicate characterizing the support of the draw.
-/

namespace SuperRes

/-! ### Tensors: batch index, channel index, spatial location -/

def Tensor (ι : Type) : Type := ℕ → ℕ → ι → ℚ

/-- Modelled from the spec: `LearnTools.down_sample` (repository module not
under `src/`) restricts the batch to the channel subset named by
`to_low_idx`.  Pooled channel `c` reads original channel `to_low_idx[c]`. -/
def selectChannels {ι : Type} (to_low_idx : List ℕ) (img : Tensor ι) : Tensor ι :=
  fun b c x => img b (to_low_idx.getD c 0) x

/-- Modelled from the spec: `LearnTools.down_sample` block aggregation for
2 spatial dims — mean over each `sf × sf` block. -/
def meanPool2 (sf : ℕ) (t : Tensor (ℕ × ℕ)) : Tensor (ℕ × ℕ) :=
  fun b c x =>
    (∑ di ∈ Finset.range sf, ∑ dj ∈ Finset.range sf,
      t b c (sf * x.1 + di, sf * x.2 + dj)) / ((sf : ℚ) * (sf : ℚ))

/-- Modelled from the spec: `LearnTools.down_sample` block aggregation for
3 spatial dims — mean over each `sf × sf × sf` block. -/
def meanPool3 (sf : ℕ) (t : Tensor (ℕ × ℕ × ℕ)) : Tensor (ℕ × ℕ × ℕ) :=
  fun b c x =>
    (∑ di ∈ Finset.range sf, ∑ dj ∈ Finset.range sf, ∑ dk ∈ Finset.range sf,
      t b c (sf * x.1 + di, sf * x.2.1 + dj, sf * x.2.2 + dk)) /
      ((sf : ℚ) * (sf : ℚ) * (sf : ℚ))

/-- The part of `BatchMaker.down_sample_im` after the `LearnTools.down_sample`
call, acting on the pooled batch (all torch ops are pointwise per batch,
channel and location, plus `sum(dim=1)` and `cat(dim=1)`):
noise is added to every pooled value, the result is thresholded at `0.5`,
the pore channel is rebuilt (`1 - material` under squash, else
`1 - sum over the M material channels`) and concatenated in front. -/
def down_sample_post {ι : Type} (pooled ε : Tensor ι) (M : ℕ) (squash : Bool) :
    Tensor ι :=
  let noised : Tensor ι := fun b c x => pooled b c x + ε b c x
  let thresholded : Tensor ι := fun b c x =>
    if (1 : ℚ) / 2 < noised b c x then 1 else 0
  if squash then
    fun b c x => if c < M then 1 - thresholded b c x else thresholded b (c - M) x
  else
    fun b c x =>
      if c = 0 then 1 - ∑ k ∈ Finset.range M, thresholded b k x
      else thresholded b (c - 1) x

/-- `BatchMaker.down_sample_im` on a batch with 2 spatial dims, with the
noise tensor `ε` passed explicitly (the code draws
`(torch.rand(size) - 0.5) / 100`). -/
def down_sample_im2 (img ε : Tensor (ℕ × ℕ)) (to_low_idx : List ℕ) (sf : ℕ)
    (squash : Bool) : Tensor (ℕ × ℕ) :=
  down_sample_post (meanPool2 sf (selectChannels to_low_idx img)) ε
    to_low_idx.length squash

/-- `BatchMaker.down_sample_im` on a batch with 3 spatial dims. -/
def down_sample_im3 (img ε : Tensor (ℕ × ℕ × ℕ)) (to_low_idx : List ℕ) (sf : ℕ)
    (squash : Bool) : Tensor (ℕ × ℕ × ℕ) :=
  down_sample_post (meanPool3 sf (selectChannels to_low_idx img)) ε
    to_low_idx.length squash

/-- Support of the noise actually drawn by `down_sample_im`:
`(torch.rand(...) - 0.5) / 100` with `torch.rand` uniform on `[0, 1)`. -/
def noise_ok {ι : Type} (ε : Tensor ι) : Prop :=
  ∀ b c x, ∃ r : ℚ, 0 ≤ r ∧ r < 1 ∧ ε b c x = (r - 1 / 2) / 100

/-! ### Shape-level model of `down_sample_im` / `random_batch3d`
(shapes as lists, leading batch dim first) -/

/-- torch `.squeeze(0)`: drop dimension 0 exactly when its size is 1. -/
def npSqueeze0 : List ℕ → List ℕ
  | 1 :: t => t
  | s => s

/-- Modelled from the spec: shape of the `LearnTools.down_sample` output —
the `M = len(to_low_idx)` selected channels, each spatial extent divided by
the scale factor. -/
def down_sample_shape (B M : ℕ) (spatial : List ℕ) (sf : ℕ) : List ℕ :=
  B :: M :: spatial.map (· / sf)

/-- Shape of `torch.sum(t, dim=1).unsqueeze(dim=1)`. -/
def sumDim1Unsqueeze : List ℕ → List ℕ
  | b :: _ :: rest => b :: 1 :: rest
  | s => s

/-- Shape of `torch.cat((s, t), dim=1)` (defined shapes only). -/
def catDim1 : List ℕ → List ℕ → List ℕ
  | b :: c1 :: rest, _ :: c2 :: _ => b :: (c1 + c2) :: rest
  | _, _ => []

/-- Shape of the value returned by `BatchMaker.down_sample_im`:
pool, (noise and threshold preserve shape), rebuild pore, concatenate,
then `.squeeze(0)`. -/
def down_sample_im_shape (B M : ℕ) (spatial : List ℕ) (sf : ℕ)
    (squash : Bool) : List ℕ :=
  let material := down_sample_shape B M spatial sf
  let pore := if squash then material else sumDim1Unsqueeze material
  npSqueeze0 (catDim1 pore material)

/-- Shape of the value returned by `BatchMaker.random_batch3d`: the
assembled high-res batch is `(batch_size, C, high_l, high_l, high_l)`;
when `down_sample` is enabled it is passed through `down_sample_im`. -/
def random_batch3d_shape (batch_size C M high_l sf : ℕ) (squash : Bool)
    (down_sample : Bool) : List ℕ :=
  if down_sample then
    down_sample_im_shape batch_size M [high_l, high_l, high_l] sf squash
  else
    [batch_size, C, high_l, high_l, high_l]

/-! ### The 3D patch sampler -/

/-- A one-hot encoded volume `(C, d1, d2, d3)` as in
`BatchMaker.generate_a_random_image3d` (`self.im` after encoding). -/
structure Vol (α : Type) where
  channels : ℕ
  d1 : ℕ
  d2 : ℕ
  d3 : ℕ
  data : ℕ → ℕ → ℕ → ℕ → α

/-- The literal permutation table `perms` of the source
(1-indexed spatial axes of a 4d array, channel axis 0 untouched). -/
def perms : List (List ℕ) := [[1, 2, 3], [2, 1, 3], [3, 1, 2]]

/-- numpy `transpose` on a 4d array: output axis `t` is input axis
`axes[t]`, so the input index at position `t` is the output index at the
position where `axes` holds `t`. -/
def transposeAxes {α : Type} (axes : List ℕ) (v : Vol α) : Vol α :=
  let dim : ℕ → ℕ := fun t => [v.channels, v.d1, v.d2, v.d3].getD (axes.getD t 0) 0
  { channels := dim 0, d1 := dim 1, d2 := dim 2, d3 := dim 3,
    data := fun j0 j1 j2 j3 =>
      let j := [j0, j1, j2, j3]
      v.data (j.getD (axes.indexOf 0) 0) (j.getD (axes.indexOf 1) 0)
        (j.getD (axes.indexOf 2) 0) (j.getD (axes.indexOf 3) 0) }

/-- `BatchMaker.generate_a_random_image3d` with the drawn start vector `s`
passed explicitly.  `np.random.randint(shape[1:] - h_r)` raises
(numpy `ValueError`, the spec's `SamplingRangeError`) as soon as some
`extent - h_r ≤ 0`; otherwise the cube
`im[:, s0:s0+h, s1:s1+h, s2:s2+h]` is extracted and transposed by
`(0, *perms[dim_chosen])`. -/
def generate_a_random_image3d {α : Type} (v : Vol α) (high_l : ℕ)
    (dim_chosen : ℕ) (s : ℕ × ℕ × ℕ) : Except String (Vol α) :=
  if high_l < v.d1 ∧ high_l < v.d2 ∧ high_l < v.d3 then
    .ok (transposeAxes (0 :: perms.getD dim_chosen [])
      { channels := v.channels, d1 := high_l, d2 := high_l, d3 := high_l,
        data := fun c x y z => v.data c (s.1 + x) (s.2.1 + y) (s.2.2 + z) })
  else
    .error ("SamplingRangeError")

/-- Support of the start draw `np.random.randint(shape[1:] - h_r)`:
each coordinate is uniform on `[0, extent - high_l)` (exclusive upper
bound), and the draw exists only if every range is nonempty.
`s.1 + high_l < v.d1` is `s.1 < v.d1 - high_l` over ℤ. -/
def draw3Possible {α : Type} (v : Vol α) (high_l : ℕ) (s : ℕ × ℕ × ℕ) : Prop :=
  s.1 + high_l < v.d1 ∧ s.2.1 + high_l < v.d2 ∧ s.2.2 + high_l < v.d3

instance {α : Type} (v : Vol α) (high_l : ℕ) (s : ℕ × ℕ × ℕ) :
    Decidable (draw3Possible v high_l s) := by
  unfold draw3Possible; exact inferInstance

/-! ### The 2D sampler, `dim_im = 2` branch -/

/-- A one-hot encoded 2D image `(C, H, W)`. -/
structure Img3 (α : Type) where
  channels : ℕ
  H : ℕ
  W : ℕ
  data : ℕ → ℕ → ℕ → α

/-- `BatchMaker.generate_a_random_image2d` in the `dim_im == 2`,
`stack == False` branch: `s_ind` is the drawn 2-vector
`np.random.randint(shape[1:] - high_l)` (raises when some
`extent - high_l ≤ 0`), and the returned window is
`im[:, s_ind[0]:e_ind[0], s_ind[0]:e_ind[0]]` — `s_ind[0]` on both axes. -/
def generate_a_random_image2d_dim2 {α : Type} (im : Img3 α) (high_l : ℕ)
    (s_ind : ℕ × ℕ) : Except String (Img3 α) :=
  if high_l < im.H ∧ high_l < im.W then
    .ok { channels := im.channels, H := high_l, W := high_l,
          data := fun c i j => im.data c (s_ind.1 + i) (s_ind.1 + j) }
  else
    .error ("SamplingRangeError")

/-! ### `rotate_and_mirror` -/

/-- A stack of `N` images, each `H × W`, as a numpy array `(N, H, W)`. -/
structure Stack (α : Type) where
  N : ℕ
  H : ℕ
  W : ℕ
  data : ℕ → ℕ → ℕ → α

/-- numpy `np.flip(im, -1)`: mirror along the last (width) axis. -/
def npFlipLast {α : Type} (s : Stack α) : Stack α :=
  { s with data := fun n i j => s.data n i (s.W - 1 - j) }

/-- numpy `np.rot90(im, 1, [-2, -1])`: one counterclockwise quarter turn in
the plane of the last two axes; `out[n, i, j] = in[n, j, W - 1 - i]`, the
two in-plane extents swap. -/
def npRot90 {α : Type} (s : Stack α) : Stack α :=
  { N := s.N, H := s.W, W := s.H,
    data := fun n i j => s.data n j (s.W - 1 - i) }

/-- numpy `np.rot90(im, k, [-2, -1])`: `k` quarter turns. -/
def npRot90k {α : Type} : ℕ → Stack α → Stack α
  | 0, s => s
  | k + 1, s => npRot90 (npRot90k k s)

/-- numpy slice assignment `res[start:start+blk.N, ...] = blk`: raises a
broadcast `ValueError` when the trailing shape of the block differs from
the destination's. -/
def setBlock {α : Type} (res : Stack α) (start : ℕ) (blk : Stack α) :
    Except String (Stack α) :=
  if blk.H = res.H ∧ blk.W = res.W then
    .ok { res with data := fun n i j =>
            if start ≤ n ∧ n < start + blk.N then blk.data (n - start) i j
            else res.data n i j }
  else
    .error ("could not broadcast")

/-- `BatchMaker.rotate_and_mirror`: allocate `np.zeros((8N, H, W), dtype)`
(`z` is the zero of the element type, so the output dtype is the input's)
and, for `k = 0..3`, write block `2k` as `np.rot90(im, k, [-2,-1])` and
block `2k+1` as `np.rot90(np.flip(im, -1), k, [-2,-1])`. -/
def rotate_and_mirror {α : Type} (im : Stack α) (z : α) :
    Except String (Stack α) :=
  let N := im.N
  let flip_im := npFlipLast im
  let res : Stack α := { N := 8 * N, H := im.H, W := im.W, data := fun _ _ _ => z }
  (setBlock res 0 (npRot90k 0 im)).bind fun r1 =>
  (setBlock r1 N (npRot90k 0 flip_im)).bind fun r2 =>
  (setBlock r2 (2 * N) (npRot90k 1 im)).bind fun r3 =>
  (setBlock r3 (3 * N) (npRot90k 1 flip_im)).bind fun r4 =>
  (setBlock r4 (4 * N) (npRot90k 2 im)).bind fun r5 =>
  (setBlock r5 (5 * N) (npRot90k 2 flip_im)).bind fun r6 =>
  (setBlock r6 (6 * N) (npRot90k 3 im)).bind fun r7 =>
  setBlock r7 (7 * N) (npRot90k 3 flip_im)

/-- Read one entry of a stack wrapped in `Except` (for stating concrete
facts about `rotate_and_mirror` results). -/
def exceptData (e : Except String (Stack ℕ)) (n i j : ℕ) : Option ℕ :=
  e.toOption.map fun r => r.data n i j

/-! ### The constructor `BatchMaker.__init__` (shape level) -/

def CROP : ℕ := 4

def HIGH_L_3D : ℕ := 64

/-- Constructor flags of `BatchMaker.__init__` (the device, path and
`to_low_idx` arguments do not enter the geometry). -/
structure BMConfig where
  sf : ℕ
  dims : ℕ
  stack : Bool
  crop : Bool
  down_sample : Bool
  low_res : Bool
  rot_and_mir : Bool
  squash : Bool

/-- State stored by the constructor: the one-hot image shape
(channels first, then spatial extents), the raw image dimensionality and
the chosen patch edge `high_l`. -/
structure BMState where
  imShape : List ℕ
  dim_im : ℕ
  high_l : ℕ

/-- Shape effect of `rotate_and_mirror` on success: the slice count is
multiplied by 8, in-plane extents unchanged. -/
def rotMirShape : List ℕ → List ℕ
  | [] => []
  | n :: t => 8 * n :: t

/-- `rotate_and_mirror` succeeds exactly when the last two axes are equal
(odd quarter-turns swap them before the block assignment). -/
def lastTwoEqual (s : List ℕ) : Bool :=
  match s.reverse with
  | w :: h :: _ => h == w
  | _ => true

/-- numpy `im[CROP:-CROP, ...]` on every axis: each extent shrinks by
`2 * CROP` (clamped at 0, as numpy slicing clamps). -/
def cropShape (s : List ℕ) : List ℕ :=
  s.map fun n => n - 2 * CROP

/-- The `high_l` computed by `__init__`: `HIGH_L_3D`, divided by the scale
factor when `low_res`, doubled when `dims == 2`. -/
def computeHighL (cfg : BMConfig) : ℕ :=
  let h := if cfg.low_res then HIGH_L_3D / cfg.sf else HIGH_L_3D
  if cfg.dims = 2 then h * 2 else h

/-- `BatchMaker.__init__` at shape level, given the shape of the loaded
label image and the number of distinct phases.  Steps in source order:
optional `rotate_and_mirror` (which can only fail on non-square slices),
`dim_im = len(shape)`, optional crop, one-hot encoding
(modelled from the spec: `ImageTools.one_hot_encoding` is not under
`src/`; it prepends a channel axis of size `len(phases)`), and the
`high_l` computation.  No extent test of any kind is performed. -/
def BatchMaker_init (cfg : BMConfig) (rawShape : List ℕ) (numPhases : ℕ) :
    Except String BMState :=
  if cfg.rot_and_mir && !lastTwoEqual rawShape then
    .error ("could not broadcast")
  else
    let s1 := if cfg.rot_and_mir then rotMirShape rawShape else rawShape
    let dim_im := s1.length
    let s2 := if cfg.crop then cropShape s1 else s1
    .ok { imShape := numPhases :: s2, dim_im := dim_im,
          high_l := computeHighL cfg }

/-- The stored one-hot volume viewed as a 3D `Vol` (channel extent and the
three spatial extents from the stored shape; the voxel data function is
supplied separately, as only shapes decide sampling success). -/
def stateVol (st : BMState) (d : ℕ → ℕ → ℕ → ℕ → ℚ) : Vol ℚ :=
  { channels := st.imShape.headD 0,
    d1 := st.imShape.tail.getD 0 0,
    d2 := st.imShape.tail.getD 1 0,
    d3 := st.imShape.tail.getD 2 0,
    data := d }

/-! ### Concrete instances used by counterexamples and witnesses -/

/-- A one-hot `1 × 3 × 2 × 2` batch: channel 1 covers row 0, channel 2
covers row 1, channel 0 (pore) is empty. -/
def cImg : Tensor (ℕ × ℕ) := fun _ c x =>
  if c = 1 then (if x.1 = 0 then 1 else 0)
  else if c = 2 then (if x.1 = 1 then 1 else 0)
  else 0

/-- A constant noise realization `0.004 = (0.9 - 0.5) / 100`, inside the
support of `(torch.rand - 0.5) / 100`. -/
def cEps : Tensor (ℕ × ℕ) := fun _ _ _ => 1 / 250

/-- A `10 × 10 × 10` single-channel volume. -/
def vTen : Vol ℚ :=
  { channels := 1, d1 := 10, d2 := 10, d3 := 10, data := fun _ _ _ _ => 0 }

/-- An `8 × 8 × 8` single-channel volume. -/
def vEight : Vol ℚ :=
  { channels := 1, d1 := 8, d2 := 8, d3 := 8, data := fun _ _ _ _ => 0 }

/-- A `2`-channel `3 × 3 × 3` volume with pairwise distinct entries. -/
def vThree : Vol ℚ :=
  { channels := 2, d1 := 3, d2 := 3, d3 := 3,
    data := fun c x y z => (c + 2 * x + 5 * y + 11 * z : ℕ) }

/-- A single `2 × 2` slice with entries `[[0, 1], [2, 3]]`. -/
def demoStack : Stack ℕ :=
  { N := 1, H := 2, W := 2, data := fun _ i j => 2 * i + j }

/-- A single non-square `1 × 2` slice. -/
def nonSquareStack : Stack ℕ :=
  { N := 1, H := 1, W := 2, data := fun _ i j => i + j }

/-- A `1`-channel `6 × 6` image with pairwise distinct entries. -/
def imSix : Img3 ℚ :=
  { channels := 1, H := 6, W := 6, data := fun c i j => (c + 7 * i + j : ℕ) }

/-- A configuration with every geometric option off (`sf = 4`, `dims = 3`,
matching the constructor defaults apart from `rot_and_mir`). -/
def cfgPlain : BMConfig :=
  { sf := 4, dims := 3, stack := true, crop := false, down_sample := false,
    low_res := false, rot_and_mir := false, squash := false }

/-- The state `BatchMaker_init cfgPlain [10, 10, 10] 3` produces:
`high_l = 64` although every spatial extent is only 10. -/
def stOversized : BMState :=
  { imShape := [3, 10, 10, 10], dim_im := 3, high_l := 64 }

/-- One-hot property of a 2D batch on a concrete grid: on every location
of the `B × H × W` grid the `C` channels are binary and sum to 1. -/
def oneHotOnGrid (img : Tensor (ℕ × ℕ)) (B C H W : ℕ) : Prop :=
  ∀ b < B, ∀ i < H, ∀ j < W,
    (∑ k ∈ Finset.range C, img b k (i, j)) = 1 ∧
    ∀ k < C, img b k (i, j) = 0 ∨ img b k (i, j) = 1

/-- A constant 3D noise realization, inside the support of
`(torch.rand - 0.5) / 100` (with `torch.rand = 0.9`). -/
def cEps3 : Tensor (ℕ × ℕ × ℕ) := fun _ _ _ => 1 / 250

/-! ## Theorems -/

section Theorems

/-- Helper: a material channel of the non-squash output is the threshold
of pooled value plus noise. -/
theorem post_material_eq {ι : Type} (pooled ε : Tensor ι) (M b c : ℕ) (x : ι) :
    down_sample_post pooled ε M false b (c + 1) x =
      if (1 : ℚ) / 2 < pooled b c x + ε b c x then 1 else 0 := by
  simp [down_sample_post]

/-- Helper: channel 0 of the non-squash output is 1 minus the sum of the
thresholded material channels. -/
theorem post_pore_eq {ι : Type} (pooled ε : Tensor ι) (M b : ℕ) (x : ι) :
    down_sample_post pooled ε M false b 0 x =
      1 - ∑ k ∈ Finset.range M,
        if (1 : ℚ) / 2 < pooled b k x + ε b k x then 1 else 0 := by
  simp [down_sample_post]

/-- Helper: under squash every output entry is binary. -/
theorem post_squash_binary {ι : Type} (pooled ε : Tensor ι) (M b c : ℕ) (x : ι) :
    down_sample_post pooled ε M true b c x = 0 ∨
      down_sample_post pooled ε M true b c x = 1 := by
  have h : down_sample_post pooled ε M true b c x =
      if c < M then 1 - (if (1 : ℚ) / 2 < pooled b c x + ε b c x then 1 else 0)
      else (if (1 : ℚ) / 2 < pooled b (c - M) x + ε b (c - M) x then 1 else 0) :=
    rfl
  rw [h]
  split <;> split <;> norm_num

/-- Helper: under squash, pore channel `c` is one minus material channel
`M + c`. -/
theorem post_squash_pore {ι : Type} (pooled ε : Tensor ι) (M b c : ℕ) (x : ι)
    (hc : c < M) :
    down_sample_post pooled ε M true b c x =
      1 - down_sample_post pooled ε M true b (M + c) x := by
  simp [down_sample_post, hc, Nat.not_lt.mpr (Nat.le_add_right M c)]

/-- C1 (corrected): for every high-resolution batch, every noise
realization and every configuration, all material channels of
`down_sample_im` are exactly 0 or 1, and with squash active the entire
output (pore included) is binary; but without squash the pore channel
equals 1 minus the sum of the thresholded material channels, which is not
always 0 or 1 (see the counterexample).  Stated for 2 and for 3 spatial
dimensions. -/
theorem down_sample_im_values (img ε : Tensor (ℕ × ℕ))
    (img3 ε3 : Tensor (ℕ × ℕ × ℕ)) (to_low_idx : List ℕ) (sf b c : ℕ)
    (x : ℕ × ℕ) (y : ℕ × ℕ × ℕ) :
    (down_sample_im2 img ε to_low_idx sf false b (c + 1) x = 0 ∨
      down_sample_im2 img ε to_low_idx sf false b (c + 1) x = 1)
  ∧ (down_sample_im2 img ε to_low_idx sf true b c x = 0 ∨
      down_sample_im2 img ε to_low_idx sf true b c x = 1)
  ∧ down_sample_im2 img ε to_low_idx sf false b 0 x =
      1 - ∑ k ∈ Finset.range to_low_idx.length,
            down_sample_im2 img ε to_low_idx sf false b (k + 1) x
  ∧ (down_sample_im3 img3 ε3 to_low_idx sf false b (c + 1) y = 0 ∨
      down_sample_im3 img3 ε3 to_low_idx sf false b (c + 1) y = 1)
  ∧ (down_sample_im3 img3 ε3 to_low_idx sf true b c y = 0 ∨
      down_sample_im3 img3 ε3 to_low_idx sf true b c y = 1)
  ∧ down_sample_im3 img3 ε3 to_low_idx sf false b 0 y =
      1 - ∑ k ∈ Finset.range to_low_idx.length,
            down_sample_im3 img3 ε3 to_low_idx sf false b (k + 1) y := by
  refine ⟨?_, post_squash_binary _ _ _ _ _ _, ?_, ?_, post_squash_binary _ _ _ _ _ _, ?_⟩
  · rw [down_sample_im2, post_material_eq]
    split <;> norm_num
  · rw [down_sample_im2, post_pore_eq]
    exact congrArg (1 - ·) (Finset.sum_congr rfl fun k _ =>
      (post_material_eq _ _ _ _ _ _).symm)
  · rw [down_sample_im3, post_material_eq]
    split <;> norm_num
  · rw [down_sample_im3, post_pore_eq]
    exact congrArg (1 - ·) (Finset.sum_congr rfl fun k _ =>
      (post_material_eq _ _ _ _ _ _).symm)

/-- C1 counterexample: `cImg` is a one-hot 3-phase `1 × 3 × 2 × 2` batch
whose two material phases each fill half of the single `2 × 2` pooled
block; under the admissible noise draw `cEps` both material channels
threshold to 1, and the pore channel of `down_sample_im` is `-1`. -/
theorem down_sample_im_not_binary_cex :
    oneHotOnGrid cImg 1 3 2 2 ∧ noise_ok cEps ∧
      down_sample_im2 cImg cEps [1, 2] 2 false 0 0 (0, 0) = -1 := by
  refine ⟨?_, fun b c x => ⟨9 / 10, by norm_num, by norm_num, by norm_num [cEps]⟩, ?_⟩
  · intro b hb i hi j hj
    interval_cases i <;> interval_cases j <;>
      (refine ⟨by norm_num [cImg, Finset.sum_range_succ], ?_⟩
       intro k hk
       interval_cases k <;> norm_num [cImg])
  · simp only [down_sample_im2, down_sample_post, meanPool2, selectChannels,
      cImg, cEps, List.length_cons, List.length_nil, Finset.sum_range_succ,
      Finset.sum_range_zero]
    norm_num

/-- C8 (confirmed): `down_sample_im` adds noise of magnitude at most
`0.005 = 1/200` to every pooled value after pooling and before the `> 0.5`
threshold; after thresholding the pore channel equals 1 minus the single
material channel when squash is active, and otherwise 1 minus the sum over
all material channels; the pore channel sits in front of the material
channel(s).  Stated for 2 and for 3 spatial dimensions. -/
theorem down_sample_im_pipeline (img ε : Tensor (ℕ × ℕ))
    (img3 ε3 : Tensor (ℕ × ℕ × ℕ)) (to_low_idx : List ℕ) (sf b c : ℕ)
    (x : ℕ × ℕ) (y : ℕ × ℕ × ℕ) (hn : noise_ok ε) (hn3 : noise_ok ε3) :
    |ε b c x| ≤ 1 / 200
  ∧ |ε3 b c y| ≤ 1 / 200
  ∧ down_sample_im2 img ε to_low_idx sf false b (c + 1) x =
      (if (1 : ℚ) / 2 <
          meanPool2 sf (selectChannels to_low_idx img) b c x + ε b c x
        then 1 else 0)
  ∧ down_sample_im2 img ε to_low_idx sf false b 0 x =
      1 - ∑ k ∈ Finset.range to_low_idx.length,
        (if (1 : ℚ) / 2 <
            meanPool2 sf (selectChannels to_low_idx img) b k x + ε b k x
          then 1 else 0)
  ∧ (to_low_idx.length = 1 →
      down_sample_im2 img ε to_low_idx sf true b 0 x =
        1 - down_sample_im2 img ε to_low_idx sf true b 1 x)
  ∧ down_sample_im3 img3 ε3 to_low_idx sf false b (c + 1) y =
      (if (1 : ℚ) / 2 <
          meanPool3 sf (selectChannels to_low_idx img3) b c y + ε3 b c y
        then 1 else 0)
  ∧ down_sample_im3 img3 ε3 to_low_idx sf false b 0 y =
      1 - ∑ k ∈ Finset.range to_low_idx.length,
        (if (1 : ℚ) / 2 <
            meanPool3 sf (selectChannels to_low_idx img3) b k y + ε3 b k y
          then 1 else 0)
  ∧ (to_low_idx.length = 1 →
      down_sample_im3 img3 ε3 to_low_idx sf true b 0 y =
        1 - down_sample_im3 img3 ε3 to_low_idx sf true b 1 y) := by
  refine ⟨?_, ?_, post_material_eq _ _ _ _ _ _, post_pore_eq _ _ _ _ _, ?_,
    post_material_eq _ _ _ _ _ _, post_pore_eq _ _ _ _ _, ?_⟩
  · obtain ⟨r, h0, h1, he⟩ := hn b c x
    rw [he, abs_le]
    constructor <;> linarith
  · obtain ⟨r, h0, h1, he⟩ := hn3 b c y
    rw [he, abs_le]
    constructor <;> linarith
  · intro h
    simp only [down_sample_im2]
    simpa [h] using post_squash_pore (meanPool2 sf (selectChannels to_low_idx img))
      ε to_low_idx.length b 0 x (by omega)
  · intro h
    simp only [down_sample_im3]
    simpa [h] using post_squash_pore (meanPool3 sf (selectChannels to_low_idx img3))
      ε3 to_low_idx.length b 0 y (by omega)

/-- Witness for C8: the concrete admissible noise draw `cEps` has
magnitude at most `1/200`, by the pipeline theorem applied at a concrete
batch, channel selection and location. -/
theorem down_sample_im_pipeline_witness : |cEps 0 0 (0, 0)| ≤ 1 / 200 :=
  (down_sample_im_pipeline cImg cEps (fun _ _ _ => 0) cEps3 [1, 2] 2 0 0
    (0, 0) (0, 0, 0)
    (fun b c x => ⟨9 / 10, by norm_num, by norm_num, by norm_num [cEps]⟩)
    (fun b c x => ⟨9 / 10, by norm_num, by norm_num, by norm_num [cEps3]⟩)).1

/-- C10 (confirmed): with downsampling enabled, `random_batch3d` ends in
`.squeeze(0)`, so a `batch_size = 1` batch loses its leading batch
dimension (shape `(C, spatial)`) while every `batch_size > 1` keeps it. -/
theorem random_batch3d_squeeze_shape (C M high_l sf batch_size : ℕ)
    (squash : Bool) :
    (batch_size = 1 → random_batch3d_shape batch_size C M high_l sf squash true =
      (if squash then M + M else 1 + M) ::
        [high_l / sf, high_l / sf, high_l / sf])
  ∧ (1 < batch_size → random_batch3d_shape batch_size C M high_l sf squash true =
      batch_size :: (if squash then M + M else 1 + M) ::
        [high_l / sf, high_l / sf, high_l / sf]) := by
  constructor
  · rintro rfl
    cases squash <;>
      simp [random_batch3d_shape, down_sample_im_shape, down_sample_shape,
        sumDim1Unsqueeze, catDim1, npSqueeze0]
  · intro hb
    obtain ⟨n, rfl⟩ : ∃ n, batch_size = n + 2 := ⟨batch_size - 2, by omega⟩
    cases squash <;>
      simp [random_batch3d_shape, down_sample_im_shape, down_sample_shape,
        sumDim1Unsqueeze, catDim1, npSqueeze0]

/-- Witness for C10: a single-element batch of `3`-phase `8³` patches with
scale factor 2 and two selected material channels comes back with shape
`(3, 4, 4, 4)` — batch dimension dropped — while a 4-element batch keeps
its batch dimension. -/
theorem random_batch3d_squeeze_shape_witness :
    random_batch3d_shape 1 3 2 8 2 false true = [3, 4, 4, 4] ∧
      random_batch3d_shape 4 3 2 8 2 false true = [4, 3, 4, 4, 4] :=
  ⟨(random_batch3d_squeeze_shape 3 2 8 2 1 false).1 rfl,
   (random_batch3d_squeeze_shape 3 2 8 2 4 false).2 (by norm_num)⟩

set_option maxHeartbeats 2000000 in
/-- Helper: on a square stack every block assignment of
`rotate_and_mirror` succeeds, and block `2k` holds the `k`-quarter-turn of
the original while block `2k+1` holds the `k`-quarter-turn of the mirrored
stack. -/
theorem rotate_and_mirror_spec {α : Type} (im : Stack α) (z : α)
    (hsq : im.H = im.W) :
    ∃ r, rotate_and_mirror im z = .ok r ∧ r.N = 8 * im.N ∧ r.H = im.H ∧
      r.W = im.W ∧
      ∀ k n i j, k < 4 → n < im.N →
        r.data (2 * k * im.N + n) i j = (npRot90k k im).data n i j ∧
        r.data ((2 * k + 1) * im.N + n) i j =
          (npRot90k k (npFlipLast im)).data n i j := by
  obtain ⟨N, H, W, d⟩ := im
  dsimp only at hsq
  subst hsq
  simp only [rotate_and_mirror, setBlock, npRot90k, npRot90, npFlipLast,
    Except.bind, and_self, ite_true, eq_self_iff_true]
  refine ⟨_, rfl, rfl, rfl, rfl, fun k n i j hk hn => ?_⟩
  interval_cases k <;>
    constructor <;>
      (dsimp only
       split_ifs <;> (congr 1 <;> omega))

/-- C5 (corrected): on every square stack (`H = W`) the expansion
deterministically succeeds with shape `8N × H × W` (element type, hence
dtype, preserved by construction) and blocks in index order
`rot0(orig), rot0(flip), rot1(orig), rot1(flip), ..., rot3(flip)`;
for `H ≠ W` the claim fails because the odd-rotation block assignment
raises a broadcast error (see the counterexample). -/
theorem rotate_and_mirror_blocks {α : Type} (im : Stack α) (z : α)
    (hsq : im.H = im.W) :
    ∃ r, rotate_and_mirror im z = .ok r ∧ r.N = 8 * im.N ∧ r.H = im.H ∧
      r.W = im.W ∧
      ∀ k n i j, k < 4 → n < im.N →
        r.data (2 * k * im.N + n) i j = (npRot90k k im).data n i j ∧
        r.data ((2 * k + 1) * im.N + n) i j =
          (npRot90k k (npFlipLast im)).data n i j :=
  rotate_and_mirror_spec im z hsq

/-- Witness for C5 on the concrete square stack `demoStack`. -/
theorem rotate_and_mirror_blocks_witness :
    ∃ r, rotate_and_mirror demoStack 0 = .ok r ∧ r.N = 8 * demoStack.N ∧
      r.H = demoStack.H ∧ r.W = demoStack.W ∧
      ∀ k n i j, k < 4 → n < demoStack.N →
        r.data (2 * k * demoStack.N + n) i j = (npRot90k k demoStack).data n i j ∧
        r.data ((2 * k + 1) * demoStack.N + n) i j =
          (npRot90k k (npFlipLast demoStack)).data n i j :=
  rotate_and_mirror_blocks demoStack 0 rfl

/-- C5 counterexample: on a non-square `1 × 1 × 2` stack the expansion
does not return an `8N × H × W` stack at all — the rotated-block
assignment fails with a broadcast error. -/
theorem rotate_and_mirror_nonsquare_cex :
    rotate_and_mirror nonSquareStack 0 = .error ("could not broadcast") := rfl

/-- C6 (corrected): in the output of `rotate_and_mirror` on a square
stack it is the 2nd block of `N` slices (rotation-by-0 of the mirrored
slices) that equals the horizontal mirror of the 1st block — the 1st
block being the original stack — not the 4th block as the claim says
(the 4th block is rotation-by-1 of the mirrored slices, see the
counterexample). -/
theorem second_block_is_mirror {α : Type} (im : Stack α) (z : α)
    (hsq : im.H = im.W) (r : Stack α)
    (hr : rotate_and_mirror im z = .ok r) :
    ∀ n i j, n < im.N →
      r.data n i j = im.data n i j ∧
      r.data (im.N + n) i j = (npFlipLast im).data n i j := by
  obtain ⟨r', hr', -, -, -, hblocks⟩ := rotate_and_mirror_spec im z hsq
  rw [hr] at hr'
  injection hr' with h
  subst h
  intro n i j hn
  have h0 := hblocks 0 n i j (by omega) hn
  simpa [npRot90k] using h0

/-- Witness for C6: on `demoStack` the entry `(0, 1)` of the 2nd block
equals the mirrored entry of the 1st. -/
theorem second_block_is_mirror_witness :
    exceptData (rotate_and_mirror demoStack 0) demoStack.N 0 1 =
      some ((npFlipLast demoStack).data 0 0 1) := by
  obtain ⟨r, hr, -, -, -, -⟩ := rotate_and_mirror_spec demoStack 0 rfl
  have h := (second_block_is_mirror demoStack 0 rfl r hr 0 0 1 (by decide)).2
  simp only [exceptData, hr, Except.toOption, Option.map]
  simpa using h

/-- C6 counterexample: on `demoStack` (`[[0, 1], [2, 3]]`) the entry
`(0, 0)` of the 4th block is `0` while the horizontal mirror of the 1st
block has `1` there, so the 4th block is not the mirror of the 1st. -/
theorem fourth_block_not_mirror_cex :
    exceptData (rotate_and_mirror demoStack 0) 3 0 0 ≠
      some ((npFlipLast demoStack).data 0 0 0) := by decide

/-- C2 (corrected): in 3D mode a drawn start always satisfies
`start + high_l + 1 ≤ extent` on every axis (so `start + high_l ≤ extent`
holds, but never with equality), sampling succeeds on every possible
draw, and exactly the starts with `start + high_l < extent` on every axis
are possible — the placement `start = extent - high_l` allowed by the
claim is never drawn (see the counterexample). -/
theorem sample3d_start_support {α : Type} (v : Vol α) (high_l : ℕ)
    (s : ℕ × ℕ × ℕ) :
    (draw3Possible v high_l s →
      s.1 + high_l + 1 ≤ v.d1 ∧ s.2.1 + high_l + 1 ≤ v.d2 ∧
      s.2.2 + high_l + 1 ≤ v.d3 ∧
      ∃ r, generate_a_random_image3d v high_l 0 s = .ok r)
  ∧ (∀ t1 t2 t3, t1 + high_l + 1 ≤ v.d1 → t2 + high_l + 1 ≤ v.d2 →
      t3 + high_l + 1 ≤ v.d3 → draw3Possible v high_l (t1, t2, t3)) := by
  constructor
  · intro hp
    obtain ⟨h1, h2, h3⟩ := hp
    have e : generate_a_random_image3d v high_l 0 s =
        .ok (transposeAxes (0 :: perms.getD 0 [])
          { channels := v.channels, d1 := high_l, d2 := high_l, d3 := high_l,
            data := fun c x y z =>
              v.data c (s.1 + x) (s.2.1 + y) (s.2.2 + z) }) := by
      simp only [generate_a_random_image3d]
      rw [if_pos ⟨by omega, by omega, by omega⟩]
    exact ⟨by omega, by omega, by omega, ⟨_, e⟩⟩
  · intro t1 t2 t3 h1 h2 h3
    show t1 + high_l < v.d1 ∧ t2 + high_l < v.d2 ∧ t3 + high_l < v.d3
    exact ⟨by omega, by omega, by omega⟩

/-- Witness for C2 on the concrete `10³` volume `vTen` with `high_l = 8`
and the draw `(1, 1, 1)`. -/
theorem sample3d_start_support_witness :
    1 + 8 + 1 ≤ vTen.d1 ∧ 1 + 8 + 1 ≤ vTen.d2 ∧ 1 + 8 + 1 ≤ vTen.d3 ∧
      ∃ r, generate_a_random_image3d vTen 8 0 (1, 1, 1) = .ok r :=
  (sample3d_start_support vTen 8 (1, 1, 1)).1 (by decide)

/-- C2 counterexample: on the `10³` volume with `high_l = 8`, the start
`(2, 0, 0)` satisfies `start + high_l ≤ extent` on every axis — and
`2 = 10 - 8` is exactly the placement the claim says is reachable — yet
it is not in the support of the start draw. -/
theorem sample3d_last_start_unreachable_cex :
    2 + 8 ≤ vTen.d1 ∧ 0 + 8 ≤ vTen.d2 ∧ 0 + 8 ≤ vTen.d3 ∧
      ¬ draw3Possible vTen 8 (2, 0, 0) := by decide

/-- C3 (corrected): the samplers fail with `SamplingRangeError` exactly
when `extent ≤ high_l` on some required axis.  In particular sampling with
`high_l` strictly greater than an extent fails as the claim says, but
`high_l` equal to the full extent also fails (the valid-start range of the
draw is empty) instead of succeeding with unique start 0 (see the
counterexample). -/
theorem sampling_error_iff_extent {α : Type} (v : Vol α) (im2 : Img3 α)
    (high_l dim_chosen : ℕ) (s : ℕ × ℕ × ℕ) (t : ℕ × ℕ) :
    (generate_a_random_image3d v high_l dim_chosen s =
        .error ("SamplingRangeError") ↔
      v.d1 ≤ high_l ∨ v.d2 ≤ high_l ∨ v.d3 ≤ high_l)
  ∧ (generate_a_random_image2d_dim2 im2 high_l t =
        .error ("SamplingRangeError") ↔
      im2.H ≤ high_l ∨ im2.W ≤ high_l) := by
  constructor
  · simp only [generate_a_random_image3d]
    split
    · rename_i h
      simp only [iff_false, false_iff, reduceCtorEq]
      omega
    · rename_i h
      simp only [true_iff]
      omega
  · simp only [generate_a_random_image2d_dim2]
    split
    · rename_i h
      simp only [iff_false, false_iff, reduceCtorEq]
      omega
    · rename_i h
      simp only [true_iff]
      omega

/-- C3 counterexample: on the `8³` volume `vEight` with `high_l = 8`
(patch exactly the full extent) sampling fails with `SamplingRangeError`,
and start 0 is not a possible draw. -/
theorem sampling_equal_extent_fails_cex :
    generate_a_random_image3d vEight 8 0 (0, 0, 0) =
        .error ("SamplingRangeError") ∧
      ¬ draw3Possible vEight 8 (0, 0, 0) :=
  ⟨rfl, by decide⟩

/-- C4 (corrected): `BatchMaker.__init__` performs no geometric check at
all: whenever its own `rotate_and_mirror` step is applicable (square
slices, or rotation disabled), construction succeeds and stores `high_l`
exactly as computed from `dims`, `low_res` and the scale factor — never
clipped to the volume extents; if `high_l` reaches or exceeds some stored
spatial extent, the failure (`SamplingRangeError`) surfaces only at the
first 3D sampling call, not at construction. -/
theorem init_no_eager_check (cfg : BMConfig) (rawShape : List ℕ)
    (numPhases : ℕ)
    (hok : cfg.rot_and_mir = false ∨ lastTwoEqual rawShape = true) :
    ∃ st, BatchMaker_init cfg rawShape numPhases = .ok st ∧
      st.high_l = computeHighL cfg ∧
      ∀ (d : ℕ → ℕ → ℕ → ℕ → ℚ) (dim_chosen : ℕ) (s : ℕ × ℕ × ℕ),
        ((stateVol st d).d1 ≤ st.high_l ∨ (stateVol st d).d2 ≤ st.high_l ∨
          (stateVol st d).d3 ≤ st.high_l) →
        generate_a_random_image3d (stateVol st d) st.high_l dim_chosen s =
          .error ("SamplingRangeError") := by
  have hcond : (cfg.rot_and_mir && !lastTwoEqual rawShape) = false := by
    rcases hok with h | h <;> simp [h]
  have hst : ∃ st, BatchMaker_init cfg rawShape numPhases = .ok st ∧
      st.high_l = computeHighL cfg := by
    simp only [BatchMaker_init, hcond, Bool.false_eq_true, if_false]
    exact ⟨_, rfl, rfl⟩
  obtain ⟨st, hst, hhl⟩ := hst
  refine ⟨st, hst, hhl, ?_⟩
  intro d dim_chosen s hle
  simp only [generate_a_random_image3d]
  rw [if_neg]
  rintro ⟨c1, c2, c3⟩
  rcases hle with h | h | h <;> omega

/-- Witness for C4: the default-like configuration `cfgPlain` on a
`10 × 10 × 10` label volume with 3 phases. -/
theorem init_no_eager_check_witness :
    ∃ st, BatchMaker_init cfgPlain [10, 10, 10] 3 = .ok st ∧
      st.high_l = computeHighL cfgPlain ∧
      ∀ (d : ℕ → ℕ → ℕ → ℕ → ℚ) (dim_chosen : ℕ) (s : ℕ × ℕ × ℕ),
        ((stateVol st d).d1 ≤ st.high_l ∨ (stateVol st d).d2 ≤ st.high_l ∨
          (stateVol st d).d3 ≤ st.high_l) →
        generate_a_random_image3d (stateVol st d) st.high_l dim_chosen s =
          .error ("SamplingRangeError") :=
  init_no_eager_check cfgPlain [10, 10, 10] 3 (Or.inl rfl)

/-- C4 counterexample: with `high_l = 64` and a `10 × 10 × 10` volume
(so `high_l` far exceeds every extent) the constructor still succeeds —
no eager error is raised — and the very first sampling call fails. -/
theorem init_succeeds_oversized_cex :
    BatchMaker_init cfgPlain [10, 10, 10] 3 = .ok stOversized ∧
      (stateVol stOversized fun _ _ _ _ => 0).d1 < stOversized.high_l ∧
      generate_a_random_image3d (stateVol stOversized fun _ _ _ _ => 0)
          stOversized.high_l 0 (0, 0, 0) = .error ("SamplingRangeError") :=
  ⟨rfl, by decide, rfl⟩

/-- C7 (confirmed): for every axis selector in `{0, 1, 2}` and every
possible draw, the 3D sampler succeeds with a patch of spatial extents
exactly `high_l × high_l × high_l`, channel axis in place, and spatial
axes permuted by the fixed table `perms`: axis 0 is the identity, axis 1
swaps the first two spatial axes, axis 2 cycles the third spatial axis to
the front. -/
theorem generate3d_perm_table {α : Type} (v : Vol α) (high_l : ℕ)
    (s : ℕ × ℕ × ℕ) (hp : draw3Possible v high_l s) :
    (∃ r, generate_a_random_image3d v high_l 0 s = .ok r ∧
      r.channels = v.channels ∧ r.d1 = high_l ∧ r.d2 = high_l ∧
      r.d3 = high_l ∧
      ∀ c i j k, r.data c i j k = v.data c (s.1 + i) (s.2.1 + j) (s.2.2 + k))
  ∧ (∃ r, generate_a_random_image3d v high_l 1 s = .ok r ∧
      r.channels = v.channels ∧ r.d1 = high_l ∧ r.d2 = high_l ∧
      r.d3 = high_l ∧
      ∀ c i j k, r.data c i j k = v.data c (s.1 + j) (s.2.1 + i) (s.2.2 + k))
  ∧ (∃ r, generate_a_random_image3d v high_l 2 s = .ok r ∧
      r.channels = v.channels ∧ r.d1 = high_l ∧ r.d2 = high_l ∧
      r.d3 = high_l ∧
      ∀ c i j k, r.data c i j k = v.data c (s.1 + j) (s.2.1 + k) (s.2.2 + i)) := by
  obtain ⟨h1, h2, h3⟩ := hp
  have e0 : generate_a_random_image3d v high_l 0 s =
      .ok (transposeAxes (0 :: perms.getD 0 [])
        { channels := v.channels, d1 := high_l, d2 := high_l, d3 := high_l,
          data := fun c x y z => v.data c (s.1 + x) (s.2.1 + y) (s.2.2 + z) }) := by
    simp only [generate_a_random_image3d]
    rw [if_pos ⟨by omega, by omega, by omega⟩]
  have e1 : generate_a_random_image3d v high_l 1 s =
      .ok (transposeAxes (0 :: perms.getD 1 [])
        { channels := v.channels, d1 := high_l, d2 := high_l, d3 := high_l,
          data := fun c x y z => v.data c (s.1 + x) (s.2.1 + y) (s.2.2 + z) }) := by
    simp only [generate_a_random_image3d]
    rw [if_pos ⟨by omega, by omega, by omega⟩]
  have e2 : generate_a_random_image3d v high_l 2 s =
      .ok (transposeAxes (0 :: perms.getD 2 [])
        { channels := v.channels, d1 := high_l, d2 := high_l, d3 := high_l,
          data := fun c x y z => v.data c (s.1 + x) (s.2.1 + y) (s.2.2 + z) }) := by
    simp only [generate_a_random_image3d]
    rw [if_pos ⟨by omega, by omega, by omega⟩]
  exact ⟨⟨_, e0, rfl, rfl, rfl, rfl, fun c i j k => rfl⟩,
         ⟨_, e1, rfl, rfl, rfl, rfl, fun c i j k => rfl⟩,
         ⟨_, e2, rfl, rfl, rfl, rfl, fun c i j k => rfl⟩⟩

/-- Witness for C7 on the concrete `2`-channel `3³` volume `vThree` with
`high_l = 1` and draw `(0, 0, 0)` (axis selector 0 projected out). -/
theorem generate3d_perm_table_witness :
    ∃ r, generate_a_random_image3d vThree 1 0 (0, 0, 0) = .ok r ∧
      r.channels = vThree.channels ∧ r.d1 = 1 ∧ r.d2 = 1 ∧ r.d3 = 1 ∧
      ∀ c i j k, r.data c i j k = vThree.data c (0 + i) (0 + j) (0 + k) :=
  (generate3d_perm_table vThree 1 (0, 0, 0) (by decide)).1

/-- C9 (confirmed): in 2D-from-2D mode (`dim_im = 2`, `stack = False`)
the two window starts are never independent: the second drawn coordinate
does not influence the result at all, and the returned patch is always
`im[:, s:s+high_l, s:s+high_l]` for the single start `s = s_ind[0]` —
only diagonal windows are ever sampled. -/
theorem gen2d_diagonal_only {α : Type} (im : Img3 α) (high_l : ℕ)
    (s_ind : ℕ × ℕ) (r : Img3 α)
    (hr : generate_a_random_image2d_dim2 im high_l s_ind = .ok r) :
    (∀ t, generate_a_random_image2d_dim2 im high_l (s_ind.1, t) = .ok r)
  ∧ ∀ c i j, r.data c i j = im.data c (s_ind.1 + i) (s_ind.1 + j) := by
  revert hr
  simp only [generate_a_random_image2d_dim2]
  split
  · rename_i h
    intro hr
    injection hr with h2
    subst h2
    exact ⟨fun t => rfl, fun c i j => rfl⟩
  · intro hr
    exact Except.noConfusion hr

/-- Witness for C9 on the concrete `6 × 6` image `imSix`, `high_l = 2`,
with drawn start vector `(1, 3)`: the second coordinate 3 is ignored and
the patch is the diagonal window at `(1, 1)`. -/
theorem gen2d_diagonal_only_witness :
    (∀ t, generate_a_random_image2d_dim2 imSix 2 (1, t) =
        .ok { channels := imSix.channels, H := 2, W := 2,
              data := fun c i j => imSix.data c (1 + i) (1 + j) })
  ∧ ∀ c i j,
      ({ channels := imSix.channels, H := 2, W := 2,
         data := fun c i j => imSix.data c (1 + i) (1 + j) } : Img3 ℚ).data c i j =
        imSix.data c (1 + i) (1 + j) :=
  gen2d_diagonal_only imSix 2 (1, 3) _ rfl

end Theorems

end SuperRes
